import Mathlib

/-!
Verification of the ccflip account-registry core: a shallow embedding of the
accounts module (sequence CRUD, rotation, identifier resolution, aliases),
the validation module (email safety), the atomic-write and lock discipline
of files.ts, and the switch protocol of index.ts, together with theorems
settling the specification claims.

Modelling conventions:
* JS objects keyed by canonical decimal strings (the account maps) are
  embedded as association lists `List (Nat × Account)` in iteration order;
  `String(num)` / `Number(str)` on canonical keys are the identity under
  this identification, and property access is `List.find?` on the key.
* Impure timestamps (`new Date().toISOString()`) become an explicit `now`
  argument.
* Fallible steps return `Except String` values; I/O faults of the host are
  injected through explicit boolean fault flags.
-/

namespace Ccflip

/-- Account record from accounts.ts (`alias` is spelled `aliasName`). -/
structure Account where
  email : String
  uuid : String
  added : String
  aliasName : Option String
deriving Repr, DecidableEq

/-- SequenceData from accounts.ts: the persisted registry document. -/
structure SequenceData where
  activeAccountNumber : Option Nat
  lastUpdated : String
  sequence : List Nat
  accounts : List (Nat × Account)
deriving Repr, DecidableEq

/-- Input to `addAccountToSequence`. -/
structure AccountInfo where
  email : String
  uuid : String
  aliasName : Option String
deriving Repr, DecidableEq

/-- JS object update `{ ...m, [k]: v }`: replaces the entry in place when the
key is present (object iteration order keeps the original position),
otherwise appends the new entry. -/
def jsObjectSet (m : List (Nat × Account)) (k : Nat) (v : Account) :
    List (Nat × Account) :=
  if m.any (fun kv => kv.1 == k) then
    m.map (fun kv => if kv.1 == k then (k, v) else kv)
  else
    m ++ [(k, v)]

/-- JS property access `m[k]` on an account object. -/
def jsObjectGet (m : List (Nat × Account)) (k : Nat) : Option Account :=
  (m.find? (fun kv => kv.1 == k)).map (fun kv => kv.2)

/-- `getNextAccountNumber` from accounts.ts: 1 when the account map is empty,
otherwise `Math.max(...keys) + 1`. -/
def getNextAccountNumber (seq : SequenceData) : Nat :=
  if seq.accounts.isEmpty then 1
  else (seq.accounts.map (fun kv => kv.1)).foldr Nat.max 0 + 1

/-- `accountExists` from accounts.ts. -/
def accountExists (seq : SequenceData) (email : String) : Bool :=
  seq.accounts.any (fun kv => kv.2.email == email)

/-- `addAccountToSequence` from accounts.ts. An empty alias string is falsy
in JS, so it is recorded as `none`. -/
def addAccountToSequence (seq : SequenceData) (info : AccountInfo)
    (now : String) : SequenceData :=
  let num := getNextAccountNumber seq
  let account : Account :=
    { email := info.email
      uuid := info.uuid
      added := now
      aliasName :=
        match info.aliasName with
        | some a => if a == "" then none else some a
        | none => none }
  { seq with
    accounts := jsObjectSet seq.accounts num account
    sequence := seq.sequence ++ [num]
    activeAccountNumber := some num
    lastUpdated := now }

/-- `removeAccountFromSequence` from accounts.ts: deletes the key from the
account map and the id from the sequence; the active account number is set
to null when the remaining sequence is empty, repointed to the first
remaining id when the removed id was active, and kept otherwise. -/
def removeAccountFromSequence (seq : SequenceData) (accountNum : Nat)
    (now : String) : SequenceData :=
  let remainingAccounts := seq.accounts.filter (fun kv => !(kv.1 == accountNum))
  let remainingSequence := seq.sequence.filter (fun n => !(n == accountNum))
  let nextActive : Option Nat :=
    if remainingSequence.isEmpty then none
    else if seq.activeAccountNumber == some accountNum then
      remainingSequence.head?
    else seq.activeAccountNumber
  { seq with
    accounts := remainingAccounts
    sequence := remainingSequence
    activeAccountNumber := nextActive
    lastUpdated := now }

/-- `getNextInSequence` from accounts.ts: `indexOf` of the active account
number (−1 when absent or null, embedded as successor 0), plus one, modulo
the sequence length; out-of-range indexing yields JS `undefined` = `none`. -/
def getNextInSequence (seq : SequenceData) : Option Nat :=
  let currentIndexSucc : Nat :=
    match seq.activeAccountNumber with
    | none => 0
    | some a =>
      match seq.sequence.findIdx? (fun n => n == a) with
      | some i => i + 1
      | none => 0
  seq.sequence.get? (currentIndexSucc % seq.sequence.length)

/-- The regex test `/^\d+$/`: nonempty and all characters are digits. -/
def isDigitString (s : String) : Bool :=
  !(s.data.isEmpty) && s.data.all (fun c => c.isDigit)

/-- `Number()` on a string that passed `/^\d+$/`: decimal value. -/
def strToNat (s : String) : Nat :=
  s.data.foldl (fun acc c => acc * 10 + (c.toNat - 48)) 0

/-- `resolveAccountIdentifier` from accounts.ts: a digits-only token is first
looked up as a literal key of the account map, then reinterpreted as a
1-based display position into the sequence; any other token is matched
against account emails. -/
def resolveAccountIdentifier (seq : SequenceData) (identifier : String) :
    Option Nat :=
  if isDigitString identifier then
    match seq.accounts.find? (fun kv => toString kv.1 == identifier) with
    | some kv => some kv.1
    | none =>
      let n := strToNat identifier
      if 1 ≤ n && n ≤ seq.sequence.length then seq.sequence.get? (n - 1)
      else none
  else
    (seq.accounts.find? (fun kv => kv.2.email == identifier)).map
      (fun kv => kv.1)

/-- `getDisplayAccountNumber` from accounts.ts: 1-based index of the id in
the sequence, or null. -/
def getDisplayAccountNumber (seq : SequenceData) (accountNum : Nat) :
    Option Nat :=
  match seq.sequence.findIdx? (fun n => n == accountNum) with
  | some idx => some (idx + 1)
  | none => none

/-- `getDisplayAccountLabel` from accounts.ts. -/
def getDisplayAccountLabel (seq : SequenceData) (accountNum : Nat) : String :=
  match getDisplayAccountNumber seq accountNum with
  | none => "Account-" ++ toString accountNum
  | some displayNum => "Account-" ++ toString displayNum

/-- `setAlias` from accounts.ts: fails when another account already carries
the alias (naming the display label and email of the first such account),
fails when the account does not exist, otherwise replaces the alias and
stamps `lastUpdated`. -/
def setAlias (seq : SequenceData) (accountNum : Nat) (aliasName : String)
    (now : String) : Except String SequenceData :=
  match seq.accounts.find?
      (fun kv => !(kv.1 == accountNum) && kv.2.aliasName == some aliasName) with
  | some kv =>
    .error ("Alias \"" ++ aliasName ++ "\" is already in use by "
      ++ getDisplayAccountLabel seq kv.1 ++ " (" ++ kv.2.email ++ ")")
  | none =>
    match seq.accounts.find? (fun kv => kv.1 == accountNum) with
    | none =>
      .error (getDisplayAccountLabel seq accountNum ++ " does not exist")
    | some kv =>
      .ok { seq with
        accounts := jsObjectSet seq.accounts accountNum
          { kv.2 with aliasName := some aliasName }
        lastUpdated := now }

/-- `findAccountByAlias` from accounts.ts. -/
def findAccountByAlias (seq : SequenceData) (aliasName : String) :
    Option Nat :=
  (seq.accounts.find? (fun kv => kv.2.aliasName == some aliasName)).map
    (fun kv => kv.1)

/-- The three data-model invariants of the spec for the registry document:
the sequence ids are exactly the account keys (no orphans), the sequence
ids are unique, and the active account number when present is an account
key. -/
def RegistryInv (seq : SequenceData) : Prop :=
  (∀ n, n ∈ seq.sequence ↔ ∃ acc, (n, acc) ∈ seq.accounts)
    ∧ seq.sequence.Nodup
    ∧ (∀ a, seq.activeAccountNumber = some a → ∃ acc, (a, acc) ∈ seq.accounts)

/-! ### Validation module (validation.ts) -/

/-- Character class `[a-zA-Z0-9._%+-]` of the email regex local part. -/
def isLocalChar (c : Char) : Bool :=
  c.isAlphanum || c == '.' || c == '_' || c == '%' || c == '+' || c == '-'

/-- Character class `[a-zA-Z0-9.-]` of the email regex domain part. -/
def isDomainChar (c : Char) : Bool :=
  c.isAlphanum || c == '.' || c == '-'

/-- Split a character list at every occurrence of the separator. -/
def splitOnChar (sep : Char) : List Char → List (List Char)
  | [] => [[]]
  | c :: cs =>
    let rest := splitOnChar sep cs
    if c == sep then [] :: rest
    else
      match rest with
      | [] => [[c]]
      | h :: t => (c :: h) :: t

/-- `validateEmail` from validation.ts: the test of
`/^[a-zA-Z0-9._%+-]+@[a-zA-Z0-9.-]+\.[a-zA-Z]\x7b2,\x7d$/`. Both character
classes exclude the at sign, so the string must contain exactly one; the
trailing letter block contains no dot, so the dot before it is the last dot
of the domain. -/
def validateEmail (email : String) : Bool :=
  match splitOnChar '@' email.data with
  | [localPart, domain] =>
    !(localPart.isEmpty) && localPart.all isLocalChar &&
      (let segs := splitOnChar '.' domain
       match segs.getLast? with
       | some tld =>
         decide (2 ≤ segs.length) && decide (2 ≤ tld.length)
           && tld.all (fun c => c.isAlpha)
           && (let beforeTld := domain.take (domain.length - (tld.length + 1))
               !(beforeTld.isEmpty) && beforeTld.all isDomainChar)
       | none => false)
  | _ => false

/-- `startsWith` on character lists, used for the infix test. -/
def listStartsWith : List Char → List Char → Bool
  | _, [] => true
  | [], _ :: _ => false
  | c :: cs, d :: ds => c == d && listStartsWith cs ds

/-- `String.includes` of JS: the needle occurs as a contiguous run. -/
def listHasInfix : List Char → List Char → Bool
  | [], needle => needle.isEmpty
  | c :: cs, needle => listStartsWith (c :: cs) needle || listHasInfix cs needle

/-- `sanitizeEmailForFilename` from validation.ts: a valid email that
contains no "..", no "/", and no NUL byte. -/
def sanitizeEmailForFilename (email : String) : Bool :=
  validateEmail email
    && !(listHasInfix email.data ['.', '.'])
    && !(listHasInfix email.data ['/'])
    && !(listHasInfix email.data [Char.ofNat 0])

/-! ### Lock discipline (files.ts) -/

/-- Outcome of `process.kill(pid, 0)`. -/
inductive KillOutcome where
  | ok
  | esrch
  | eperm
  | otherErr
deriving Repr, DecidableEq

/-- `isProcessAlive` from files.ts: only ESRCH disproves liveness; EPERM and
every other failure are treated as alive. -/
def isProcessAlive (probe : Int → KillOutcome) (pid : Int) : Bool :=
  match probe pid with
  | .ok => true
  | .esrch => false
  | .eperm => true
  | .otherErr => true

/-- State of the owner record file inside the lock directory. `noPid` covers
a parsed document whose pid field is absent, not a number, or not an
integer; `pidRec` carries a parsed integer pid with the recorded start
time. -/
inductive LockOwnerFile where
  | missing
  | unreadable
  | noPid
  | pidRec (pid : Int) (startedAt : String)
deriving Repr, DecidableEq

/-- `isStaleLock` from files.ts: stale when the owner record is missing,
unreadable, without a positive integer pid, or names a process that is
provably dead. -/
def isStaleLock (owner : LockOwnerFile) (probe : Int → KillOutcome) : Bool :=
  match owner with
  | .missing => true
  | .unreadable => true
  | .noPid => true
  | .pidRec pid _ => if pid ≤ 0 then true else !(isProcessAlive probe pid)

/-- Filesystem state of the lock marker directory. -/
structure LockState where
  dirExists : Bool
  owner : LockOwnerFile
deriving Repr, DecidableEq

/-- `acquireLock` from files.ts: `mkdirSync` without `recursive` raises
EEXIST when the marker directory exists; a stale marker is then removed and
recreated with the new owner record, a live one raises the
another-instance error naming the lock path. -/
def acquireLock (lockDir : String) (st : LockState)
    (probe : Int → KillOutcome) (selfPid : Int) (now : String) :
    Except String LockState :=
  if st.dirExists then
    if isStaleLock st.owner probe then
      .ok { dirExists := true, owner := .pidRec selfPid now }
    else
      .error ("Another instance is running. If this is wrong, remove "
        ++ lockDir)
  else
    .ok { dirExists := true, owner := .pidRec selfPid now }

/-! ### Atomic JSON writes (files.ts) -/

/-- A value handed to `writeJsonAtomic`: either one with a well-defined JSON
serialization, or one on which `JSON.stringify` throws (circular
structure), or one on which it yields `undefined` so that the round-trip
`JSON.parse` validation throws. -/
inductive JsonValue where
  | jdoc (json : String)
  | circularRef
  | undefinedLike
deriving Repr, DecidableEq

/-- `JSON.stringify` followed by the validating `JSON.parse` round trip. -/
def jsonStringifyRoundtrip : JsonValue → Except String String
  | .jdoc json => .ok json
  | .circularRef => .error "TypeError: converting circular structure to JSON"
  | .undefinedLike => .error "SyntaxError: unexpected token in JSON"

/-- Result of `writeJsonAtomic`: the outcome together with the final content
of the destination path and of the temporary path used by this call (the
temporary name is fresh, so that path starts absent). -/
structure AtomicWriteResult where
  outcome : Except String Unit
  destContent : Option String
  tempContent : Option String
deriving Repr

/-- `writeJsonAtomic` from files.ts: serialize and validate, write the
serialization to a fresh exclusively-created temp file, rename over the
destination; on any failure inside the try block the temp file is removed
and the error rethrown. `failWrite` and `failRename` inject I/O faults of
`writeFileSync` and `renameSync`. -/
def writeJsonAtomic (destContent : Option String) (v : JsonValue)
    (failWrite failRename : Bool) : AtomicWriteResult :=
  match jsonStringifyRoundtrip v with
  | .error e => { outcome := .error e, destContent := destContent, tempContent := none }
  | .ok json =>
    if failWrite then
      { outcome := .error "EIO: writeFileSync", destContent := destContent,
        tempContent := none }
    else if failRename then
      { outcome := .error "EIO: renameSync", destContent := destContent,
        tempContent := none }
    else
      { outcome := .ok (), destContent := some json, tempContent := none }

/-! ### Switch protocol (index.ts) -/

/-- The `oauthAccount` sub-document of the Claude config: the email address
used by `getCurrentAccount`, plus the remaining fields kept opaque. -/
structure OAuthAccount where
  emailAddress : Option String
  payload : String
deriving Repr, DecidableEq

/-- Content of a JSON config file: either text on which `JSON.parse` throws,
or a parsed object with its optional `oauthAccount` sub-field and the other
top-level fields kept opaque. -/
inductive ConfigFile where
  | unparsable (raw : String)
  | cdoc (oauthAccount : Option OAuthAccount) (rest : List (String × String))
deriving Repr, DecidableEq

/-- JS truthiness of the raw text read from an optional config file: absent
reads as the empty string; a parsed document always serializes nonempty. -/
def configRawTruthy : Option ConfigFile → Bool
  | none => false
  | some (.unparsable raw) => !(raw == "")
  | some (.cdoc _ _) => true

/-- `getCurrentAccount` from index.ts:
`content?.oauthAccount?.emailAddress ?? "none"`, with a missing or
unparsable config file read as "none". -/
def getCurrentAccount (cfg : Option ConfigFile) : String :=
  match cfg with
  | none => "none"
  | some (.unparsable _) => "none"
  | some (.cdoc oauth _) =>
    match oauth with
    | none => "none"
    | some oa =>
      match oa.emailAddress with
      | none => "none"
      | some e => e

/-- Lookup in a backup store keyed by account number and email. -/
def storeGet {α : Type} (store : List ((Nat × String) × α))
    (key : Nat × String) : Option α :=
  (store.find? (fun kv => kv.1 == key)).map (fun kv => kv.2)

/-- Update of a backup store keyed by account number and email. -/
def storeSet {α : Type} (store : List ((Nat × String) × α))
    (key : Nat × String) (v : α) : List ((Nat × String) × α) :=
  if store.any (fun kv => kv.1 == key) then
    store.map (fun kv => if kv.1 == key then (key, v) else kv)
  else
    store ++ [(key, v)]

/-- External state touched by `performSwitch`: the Claude config file, the
active credential slot, the two backup stores, and the persisted registry
file. The config path and the sequence path are distinct constants. -/
structure SwitchEnv where
  claudeConfig : Option ConfigFile
  activeCreds : String
  credBackups : List ((Nat × String) × String)
  configBackups : List ((Nat × String) × ConfigFile)
  registryFile : Option SequenceData
deriving Repr

/-- Injected I/O faults for the fallible host calls inside `performSwitch`,
one flag per call site, each raising at that step. -/
structure SwitchFaults where
  failReadCreds : Bool
  failBackupCreds : Bool
  failBackupConfig : Bool
  failReadTargetCreds : Bool
  failReadTargetConfig : Bool
  failWriteCreds : Bool
  failWriteConfig : Bool
  failWriteSequence : Bool
deriving Repr, DecidableEq

/-- Step 1 of `performSwitch` (index.ts): back up the current account. The
backup is skipped when there is no current active account or no current
email; otherwise the active credentials and, when truthy, the current
config content are persisted into the backup stores keyed by the current
account number and email. Writing the config backup parses its raw content
first and so throws on an unparsable current config. -/
def performSwitchBackup (f : SwitchFaults) (env : SwitchEnv)
    (activeAccount : Option Nat) (currentEmail : String) :
    Except String Unit × SwitchEnv :=
  match activeAccount with
  | none => (.ok (), env)
  | some currentAccount =>
    if currentEmail == "none" then (.ok (), env)
    else if f.failReadCreds then (.error "EIO: readCredentials", env)
    else
      let currentCreds := env.activeCreds
      let credsPart : Except String Unit × SwitchEnv :=
        if !(currentCreds == "") then
          if f.failBackupCreds then
            (.error "EIO: writeAccountCredentials", env)
          else
            (.ok (), { env with
              credBackups := storeSet env.credBackups
                (currentAccount, currentEmail) currentCreds })
        else (.ok (), env)
      match credsPart with
      | (.error e, envP) => (.error e, envP)
      | (.ok _, env1) =>
        if configRawTruthy env.claudeConfig then
          match env.claudeConfig with
          | some (.cdoc o r) =>
            if f.failBackupConfig then
              (.error "EIO: writeAccountConfig", env1)
            else
              (.ok (), { env1 with
                configBackups := storeSet env1.configBackups
                  (currentAccount, currentEmail) (ConfigFile.cdoc o r) })
          | some (.unparsable _) =>
            (.error "SyntaxError: invalid JSON in current config", env1)
          | none => (.ok (), env1)
        else (.ok (), env1)

/-- Final steps of `performSwitch` (index.ts): atomically write the merged
config, then atomically write the updated registry; each write leaves its
destination unchanged when it fails. -/
def performSwitchCommit (f : SwitchFaults) (envC : SwitchEnv)
    (seq : SequenceData) (targetAccount : Nat) (now : String)
    (oauthAccount : OAuthAccount) (currentRest : List (String × String)) :
    Except String Unit × SwitchEnv :=
  if f.failWriteConfig then (.error "EIO: writeJsonAtomic(configPath)", envC)
  else
    let envD := { envC with
      claudeConfig := some (.cdoc (some oauthAccount) currentRest) }
    let seq2 := { seq with
      activeAccountNumber := some targetAccount
      lastUpdated := now }
    if f.failWriteSequence then
      (.error "EIO: writeJsonAtomic(SEQUENCE_FILE)", envD)
    else
      (.ok (), { envD with registryFile := some seq2 })

/-- `performSwitch` from index.ts. The pair carries the thrown error or unit
together with the external state reached when the function returns or the
error propagates. Reads of missing backups yield the empty string, which is
falsy; the registry write is the final step. -/
def performSwitch (f : SwitchFaults) (env : SwitchEnv) (seq : SequenceData)
    (targetAccount : Nat) (now : String) : Except String Unit × SwitchEnv :=
  if seq.activeAccountNumber == some targetAccount then
    match jsObjectGet seq.accounts targetAccount with
    | none => (.error "TypeError: account is undefined", env)
    | some _ => (.ok (), env)
  else
    match jsObjectGet seq.accounts targetAccount with
    | none => (.error "TypeError: account is undefined", env)
    | some targetEntry =>
      let targetEmail := targetEntry.email
      let currentEmail := getCurrentAccount env.claudeConfig
      if !(sanitizeEmailForFilename targetEmail) then
        (.error "Target account email is not safe for storage", env)
      else if !(currentEmail == "none")
          && !(sanitizeEmailForFilename currentEmail) then
        (.error "Current account email is not safe for storage", env)
      else
        -- Step 1: backup the current account
        match performSwitchBackup f env seq.activeAccountNumber currentEmail with
        | (.error e, envB) => (.error e, envB)
        | (.ok _, envB) =>
          -- Step 2: restore the target account
          if f.failReadTargetCreds then
            (.error "EIO: readAccountCredentials", envB)
          else
            let targetCreds :=
              (storeGet envB.credBackups (targetAccount, targetEmail)).getD ""
            if f.failReadTargetConfig then
              (.error "EIO: readAccountConfig", envB)
            else
              let targetConfig :=
                storeGet envB.configBackups (targetAccount, targetEmail)
              if targetCreds == "" || !(configRawTruthy targetConfig) then
                (.error ("Missing backup data for "
                  ++ getDisplayAccountLabel seq targetAccount), envB)
              else
                -- Step 3: write the target credentials
                if f.failWriteCreds then (.error "EIO: writeCredentials", envB)
                else
                  let envC := { envB with activeCreds := targetCreds }
                  -- Step 4: merge oauthAccount into the current config
                  match targetConfig with
                  | none =>
                    (.error "unreachable: falsy target config", envC)
                  | some (.unparsable _) =>
                    (.error "SyntaxError: invalid JSON in target backup", envC)
                  | some (.cdoc targetOauth _) =>
                    match targetOauth with
                    | none => (.error "Invalid oauthAccount in backup", envC)
                    | some oauthAccount =>
                      match envC.claudeConfig with
                      | some (.unparsable _) =>
                        (.error "SyntaxError: invalid JSON in current config",
                          envC)
                      | some (.cdoc _ currentRest) =>
                        performSwitchCommit f envC seq targetAccount now
                          oauthAccount currentRest
                      | none =>
                        performSwitchCommit f envC seq targetAccount now
                          oauthAccount []

/-! ### Concrete fixtures used by witnesses and counterexamples -/

/-- A concrete account record. -/
def mkAccount (email uuid : String) (aliasName : Option String := none) :
    Account :=
  { email := email, uuid := uuid, added := "t0", aliasName := aliasName }

/-- A two-account registry with account 1 active. -/
def exSeq2 : SequenceData :=
  { activeAccountNumber := some 1, lastUpdated := "t0", sequence := [1, 2],
    accounts := [(1, mkAccount "a@b.co" "u1"), (2, mkAccount "c@d.co" "u2")] }

/-- A one-account registry with account 1 active. -/
def exSeq1 : SequenceData :=
  { activeAccountNumber := some 1, lastUpdated := "t0", sequence := [1],
    accounts := [(1, mkAccount "a@b.co" "u1")] }

/-- A two-account registry in which account 1 carries the alias "work". -/
def exSeq2Alias : SequenceData :=
  { activeAccountNumber := some 1, lastUpdated := "t0", sequence := [1, 2],
    accounts := [(1, mkAccount "a@b.co" "u1" (some "work")),
      (2, mkAccount "c@d.co" "u2")] }

/-- An external state with no backups, no config file, and the two-account
registry persisted. -/
def exEnv : SwitchEnv :=
  { claudeConfig := none, activeCreds := "", credBackups := [],
    configBackups := [], registryFile := some exSeq2 }

/-- The all-clear fault assignment. -/
def exNoFaults : SwitchFaults :=
  { failReadCreds := false, failBackupCreds := false,
    failBackupConfig := false, failReadTargetCreds := false,
    failReadTargetConfig := false, failWriteCreds := false,
    failWriteConfig := false, failWriteSequence := false }

/-! ## Theorems -/

/-- Claim C4: for every prior destination content and every value whose
serialization or round-trip validation fails, `writeJsonAtomic` throws that
error, no temporary file is left behind, and the destination content is
exactly what it was before the call. -/
theorem writeJsonAtomic_unserializable_preserves_dest
    (dest : Option String) (v : JsonValue) (failWrite failRename : Bool)
    (e : String) (h : jsonStringifyRoundtrip v = .error e) :
    (writeJsonAtomic dest v failWrite failRename).outcome = .error e
      ∧ (writeJsonAtomic dest v failWrite failRename).destContent = dest
      ∧ (writeJsonAtomic dest v failWrite failRename).tempContent = none := by
  unfold writeJsonAtomic
  rw [h]
  exact ⟨rfl, rfl, rfl⟩

/-- Witness for C4 at a circular value over an existing destination. -/
theorem writeJsonAtomic_unserializable_preserves_dest_witness :
    jsonStringifyRoundtrip JsonValue.circularRef =
        .error "TypeError: converting circular structure to JSON"
      ∧ ((writeJsonAtomic (some "old content") JsonValue.circularRef false
            false).outcome =
          .error "TypeError: converting circular structure to JSON"
        ∧ (writeJsonAtomic (some "old content") JsonValue.circularRef false
            false).destContent = some "old content"
        ∧ (writeJsonAtomic (some "old content") JsonValue.circularRef false
            false).tempContent = none) :=
  ⟨rfl, writeJsonAtomic_unserializable_preserves_dest (some "old content")
    JsonValue.circularRef false false _ rfl⟩

/-- Claim C3: when the lock marker exists, `acquireLock` fails with the
another-instance error naming the lock path whenever the recorded owner pid
is a positive integer whose process cannot be disproved alive (only ESRCH
disproves, EPERM and other failures count as alive); and it succeeds,
replacing the marker with the new owner pid and start time, whenever the
owner record is missing, unreadable, without a valid pid, or names a
provably dead process. -/
theorem acquireLock_conflict_spec (lockDir : String) (st : LockState)
    (probe : Int → KillOutcome) (selfPid : Int) (now : String)
    (hex : st.dirExists = true) :
    ((∃ p s, st.owner = .pidRec p s ∧ 0 < p ∧ probe p ≠ .esrch) →
        acquireLock lockDir st probe selfPid now =
          .error ("Another instance is running. If this is wrong, remove "
            ++ lockDir))
      ∧ ((st.owner = .missing ∨ st.owner = .unreadable ∨ st.owner = .noPid ∨
            ∃ p s, st.owner = .pidRec p s ∧ (p ≤ 0 ∨ probe p = .esrch)) →
        acquireLock lockDir st probe selfPid now =
          .ok { dirExists := true, owner := .pidRec selfPid now }) := by
  constructor
  · rintro ⟨p, s, ho, hp, halive⟩
    have hstale : isStaleLock st.owner probe = false := by
      rw [ho]
      simp only [isStaleLock, isProcessAlive]
      rw [if_neg (show ¬ p ≤ 0 by omega)]
      cases h : probe p with
      | esrch => exact absurd h halive
      | ok => simp [h]
      | eperm => simp [h]
      | otherErr => simp [h]
    simp [acquireLock, hex, hstale]
  · intro h
    have hstale : isStaleLock st.owner probe = true := by
      rcases h with h | h | h | ⟨p, s, ho, hcase⟩
      · rw [h]; rfl
      · rw [h]; rfl
      · rw [h]; rfl
      · rw [ho]
        simp only [isStaleLock, isProcessAlive]
        rcases hcase with hle | hdead
        · rw [if_pos hle]
        · by_cases hple : p ≤ 0
          · rw [if_pos hple]
          · rw [if_neg hple]
            simp [hdead]
    simp [acquireLock, hex, hstale]

/-- Witness for C3: a dead-owner marker is replaced, and with a separate
application at a live owner the theorem also yields the failure case. -/
theorem acquireLock_conflict_spec_witness :
    acquireLock "/tmp/.lock" ⟨true, .pidRec 42 "t0"⟩ (fun _ => .esrch) 7 "t1"
        = .ok { dirExists := true, owner := .pidRec 7 "t1" }
      ∧ acquireLock "/tmp/.lock" ⟨true, .pidRec 42 "t0"⟩ (fun _ => .eperm) 7
          "t1" =
        .error "Another instance is running. If this is wrong, remove /tmp/.lock" :=
  ⟨(acquireLock_conflict_spec "/tmp/.lock" ⟨true, .pidRec 42 "t0"⟩
      (fun _ => .esrch) 7 "t1" rfl).2
      (Or.inr (Or.inr (Or.inr ⟨42, "t0", rfl, Or.inr rfl⟩))),
    (acquireLock_conflict_spec "/tmp/.lock" ⟨true, .pidRec 42 "t0"⟩
      (fun _ => .eperm) 7 "t1" rfl).1
      ⟨42, "t0", rfl, by omega, by simp⟩⟩

/-- Claim C2: `removeAccountFromSequence` deletes the account entry and its
id from the sequence and never leaves the active account number referencing
the removed id: it becomes null when the remaining sequence is empty, is
repointed to the first remaining id when the removed id was active, and
otherwise keeps a value different from the removed id. -/
theorem removeAccountFromSequence_active_safe (seq : SequenceData) (n : Nat)
    (now : String) :
    jsObjectGet (removeAccountFromSequence seq n now).accounts n = none
      ∧ n ∉ (removeAccountFromSequence seq n now).sequence
      ∧ (removeAccountFromSequence seq n now).activeAccountNumber ≠ some n
      ∧ ((removeAccountFromSequence seq n now).sequence = [] →
          (removeAccountFromSequence seq n now).activeAccountNumber = none)
      ∧ (seq.activeAccountNumber = some n →
          (removeAccountFromSequence seq n now).sequence ≠ [] →
          (removeAccountFromSequence seq n now).activeAccountNumber =
            (removeAccountFromSequence seq n now).sequence.head?) := by
  unfold removeAccountFromSequence jsObjectGet
  simp only []
  refine ⟨?_, ?_, ?_, ?_, ?_⟩
  · simp [List.find?_eq_none]
  · intro hmem
    have := List.of_mem_filter hmem
    simp at this
  · set rs := seq.sequence.filter (fun m => !(m == n)) with hrs
    by_cases hemp : rs.isEmpty
    · simp [hemp]
    · simp only [hemp, Bool.false_eq_true, if_false]
      by_cases hact : seq.activeAccountNumber == some n
      · simp only [hact, if_true]
        intro hhead
        rcases hh : rs with _ | ⟨h, t⟩
        · rw [hh] at hemp; simp at hemp
        · rw [hh] at hhead
          simp at hhead
          have : h ∈ rs := by rw [hh]; exact List.mem_cons_self h t
          have := List.of_mem_filter this
          simp [hhead] at this
      · simp only [hact, Bool.false_eq_true, if_false]
        intro hcontra
        rw [hcontra] at hact
        simp at hact
  · intro hnil
    simp only [hnil]
    simp [List.isEmpty_nil]
  · intro hact hne
    have hemp : (seq.sequence.filter (fun m => !(m == n))).isEmpty = false := by
      rcases hh : seq.sequence.filter (fun m => !(m == n)) with _ | ⟨h, t⟩
      · exact absurd hh hne
      · rfl
    simp [hemp, hact]

/-- Witness for C2: removing the active account 1 from the two-account
registry repoints the active number to the remaining first id 2. -/
theorem removeAccountFromSequence_active_safe_witness :
    jsObjectGet (removeAccountFromSequence exSeq2 1 "t1").accounts 1 = none
      ∧ 1 ∉ (removeAccountFromSequence exSeq2 1 "t1").sequence
      ∧ (removeAccountFromSequence exSeq2 1 "t1").activeAccountNumber ≠ some 1
      ∧ ((removeAccountFromSequence exSeq2 1 "t1").sequence = [] →
          (removeAccountFromSequence exSeq2 1 "t1").activeAccountNumber = none)
      ∧ (exSeq2.activeAccountNumber = some 1 →
          (removeAccountFromSequence exSeq2 1 "t1").sequence ≠ [] →
          (removeAccountFromSequence exSeq2 1 "t1").activeAccountNumber =
            (removeAccountFromSequence exSeq2 1 "t1").sequence.head?) :=
  removeAccountFromSequence_active_safe exSeq2 1 "t1"

/-- Claim C7: with the active id present in the sequence, `getNextInSequence`
returns the id at position (index of the active id + 1) modulo the length;
on a two-account registry rotating twice returns the original active id. -/
theorem getNextInSequence_rotation_spec :
    (∀ (seq : SequenceData) (a i : Nat),
        2 ≤ seq.sequence.length →
        seq.activeAccountNumber = some a →
        seq.sequence.findIdx? (fun n => n == a) = some i →
        getNextInSequence seq =
          seq.sequence.get? ((i + 1) % seq.sequence.length))
      ∧ (∀ (seq : SequenceData) (x y : Nat),
        seq.sequence = [x, y] →
        seq.activeAccountNumber = some x →
        getNextInSequence seq = some y
          ∧ getNextInSequence
              { seq with activeAccountNumber := some y } = some x) := by
  constructor
  · intro seq a i _ hact hidx
    simp only [getNextInSequence, hact, hidx]
  · intro seq x y hseq hact
    constructor
    · unfold getNextInSequence
      rw [hact, hseq]
      simp [List.findIdx?_cons]
    · unfold getNextInSequence
      rw [hseq]
      by_cases hxy : x = y
      · simp [List.findIdx?_cons, hxy]
      · simp [List.findIdx?_cons, hxy, Ne.symm hxy]

/-- Witness for C7 on the two-account fixture: rotating from account 1
yields 2, and rotating from account 2 yields 1 again. -/
theorem getNextInSequence_rotation_spec_witness :
    getNextInSequence exSeq2 = some 2
      ∧ getNextInSequence
          { exSeq2 with activeAccountNumber := some 2 } = some 1 :=
  getNextInSequence_rotation_spec.2 exSeq2 1 2 rfl rfl

/-- Claim C5: for a digits-only token, `resolveAccountIdentifier` first
checks the token as a literal internal id (an account whose canonical key
string is the token) and returns that id; when no key matches, the token is
reinterpreted as a 1-based display position into the sequence, returning
the id there when in bounds and not-found otherwise, so a numeric token is
decided by keys and positions alone, never by emails; a non-numeric token
is resolved against account emails, not-found when no email matches. -/
theorem resolveAccountIdentifier_spec (seq : SequenceData) (token : String) :
    (isDigitString token = true →
      ((∃ kv ∈ seq.accounts, toString kv.1 = token) →
          ∃ m acc, resolveAccountIdentifier seq token = some m
            ∧ (m, acc) ∈ seq.accounts ∧ toString m = token)
        ∧ (seq.accounts.find? (fun kv => toString kv.1 == token) = none →
            (1 ≤ strToNat token → strToNat token ≤ seq.sequence.length →
              resolveAccountIdentifier seq token =
                seq.sequence.get? (strToNat token - 1))
            ∧ (¬ (1 ≤ strToNat token ∧ strToNat token ≤ seq.sequence.length) →
              resolveAccountIdentifier seq token = none)))
      ∧ (isDigitString token = false →
        ((∃ kv ∈ seq.accounts, kv.2.email = token) →
            ∃ m acc, resolveAccountIdentifier seq token = some m
              ∧ (m, acc) ∈ seq.accounts ∧ acc.email = token)
          ∧ ((∀ kv ∈ seq.accounts, kv.2.email ≠ token) →
            resolveAccountIdentifier seq token = none)) := by
  constructor
  · intro hdig
    constructor
    · rintro ⟨kv, hmem, hstr⟩
      have hsome : (seq.accounts.find?
          (fun kv => toString kv.1 == token)).isSome :=
        List.find?_isSome.mpr ⟨kv, hmem, by simp [hstr]⟩
      obtain ⟨kv', hfind⟩ := Option.isSome_iff_exists.mp hsome
      have hpred := List.find?_some hfind
      have hmem' := List.mem_of_find?_eq_some hfind
      refine ⟨kv'.1, kv'.2, ?_, by simpa using hmem', by simpa using hpred⟩
      simp [resolveAccountIdentifier, hdig, hfind]
    · intro hmiss
      constructor
      · intro h1 h2
        simp [resolveAccountIdentifier, hdig, hmiss, h1, h2]
      · intro hout
        simp only [resolveAccountIdentifier, hdig, if_true, hmiss]
        rw [if_neg]
        simpa using hout
  · intro hdig
    constructor
    · rintro ⟨kv, hmem, hemail⟩
      have hsome : (seq.accounts.find?
          (fun kv => kv.2.email == token)).isSome :=
        List.find?_isSome.mpr ⟨kv, hmem, by simp [hemail]⟩
      obtain ⟨kv', hfind⟩ := Option.isSome_iff_exists.mp hsome
      have hpred := List.find?_some hfind
      have hmem' := List.mem_of_find?_eq_some hfind
      refine ⟨kv'.1, kv'.2, ?_, by simpa using hmem', by simpa using hpred⟩
      simp [resolveAccountIdentifier, hdig, hfind]
    · intro hnone
      have hfindn : seq.accounts.find? (fun kv => kv.2.email == token)
          = none :=
        List.find?_eq_none.mpr (fun kv hkv => by simp [hnone kv hkv])
      simp [resolveAccountIdentifier, hdig, hfindn]

/-- Witness for C5: on the two-account fixture the token "2" resolves as a
literal id, an out-of-range "9" resolves to not-found, and the email token
resolves to its account. -/
theorem resolveAccountIdentifier_spec_witness :
    (∃ m acc, resolveAccountIdentifier exSeq2 "2" = some m
        ∧ (m, acc) ∈ exSeq2.accounts ∧ toString m = "2")
      ∧ resolveAccountIdentifier exSeq2 "9" = none
      ∧ (∃ m acc, resolveAccountIdentifier exSeq2 "c@d.co" = some m
        ∧ (m, acc) ∈ exSeq2.accounts ∧ acc.email = "c@d.co") :=
  ⟨((resolveAccountIdentifier_spec exSeq2 "2").1 rfl).1
      ⟨(2, mkAccount "c@d.co" "u2"), by decide, rfl⟩,
    (((resolveAccountIdentifier_spec exSeq2 "9").1 rfl).2 rfl).2
      (by decide),
    ((resolveAccountIdentifier_spec exSeq2 "c@d.co").2 rfl).1
      ⟨(2, mkAccount "c@d.co" "u2"), by decide, rfl⟩⟩

/-- When some entry carries the key, the JS object update is the in-place
replacement map. -/
theorem jsObjectSet_of_mem {m : List (Nat × Account)} {k : Nat} {v : Account}
    (kv : Nat × Account) (hmem : kv ∈ m) (hk : kv.1 = k) :
    jsObjectSet m k v =
      m.map (fun kv' => if kv'.1 == k then (k, v) else kv') := by
  unfold jsObjectSet
  rw [if_pos (List.any_eq_true.mpr ⟨kv, hmem, by simp [hk]⟩)]

/-- After an in-place replacement at key `k`, looking up `k` yields exactly
the replacement value. -/
theorem find?_map_replace (m : List (Nat × Account)) (k : Nat) (v : Account)
    (hex : ∃ kv ∈ m, kv.1 = k) :
    (m.map (fun kv' => if kv'.1 == k then (k, v) else kv')).find?
      (fun kv' => kv'.1 == k) = some (k, v) := by
  obtain ⟨kv0, hmem0, hk0⟩ := hex
  have hsome : ((m.map (fun kv' => if kv'.1 == k then (k, v) else kv')).find?
      (fun kv' => kv'.1 == k)).isSome :=
    List.find?_isSome.mpr
      ⟨(k, v), List.mem_map.mpr ⟨kv0, hmem0, by simp [hk0]⟩, by simp⟩
  obtain ⟨x, hx⟩ := Option.isSome_iff_exists.mp hsome
  have hpred := List.find?_some hx
  obtain ⟨y, hymem, hyx⟩ := List.mem_map.mp (List.mem_of_find?_eq_some hx)
  rw [hx]
  by_cases hy : y.1 = k
  · rw [if_pos (by simp [hy])] at hyx
    rw [hyx]
  · rw [if_neg (by simp [hy])] at hyx
    subst hyx
    simp at hpred
    exact absurd hpred hy

/-- Claim C8: `setAlias` is idempotent-safe — on an existing account with an
alias held by no other account, applying the same alias twice succeeds and
leaves the alias set; when a different account already holds the alias it
always throws the already-in-use error naming that account through its
display label and its email; and it throws on a nonexistent internal id. -/
theorem setAlias_spec :
    (∀ (seq : SequenceData) (num : Nat) (al now now' : String),
        (seq.accounts.find? (fun kv => kv.1 == num)).isSome →
        seq.accounts.find?
          (fun kv => !(kv.1 == num) && kv.2.aliasName == some al) = none →
        ∃ seq1 seq2, setAlias seq num al now = .ok seq1
          ∧ setAlias seq1 num al now' = .ok seq2
          ∧ (jsObjectGet seq1.accounts num).map Account.aliasName =
              some (some al)
          ∧ (jsObjectGet seq2.accounts num).map Account.aliasName =
              some (some al))
      ∧ (∀ (seq : SequenceData) (num : Nat) (al now : String),
        (∃ kv ∈ seq.accounts, kv.1 ≠ num ∧ kv.2.aliasName = some al) →
        ∃ kv, kv ∈ seq.accounts ∧ kv.1 ≠ num ∧ kv.2.aliasName = some al
          ∧ setAlias seq num al now =
            .error ("Alias \"" ++ al ++ "\" is already in use by "
              ++ getDisplayAccountLabel seq kv.1 ++ " (" ++ kv.2.email ++ ")"))
      ∧ (∀ (seq : SequenceData) (num : Nat) (al now : String),
        (∀ kv ∈ seq.accounts, kv.1 ≠ num) →
        ∃ e, setAlias seq num al now = .error e) := by
  refine ⟨?_, ?_, ?_⟩
  · intro seq num al now now' hsome hdup
    obtain ⟨kv, hfind⟩ := Option.isSome_iff_exists.mp hsome
    have hkey : kv.1 = num := by simpa using List.find?_some hfind
    have hmem := List.mem_of_find?_eq_some hfind
    set upd : Account := { kv.2 with aliasName := some al } with hupd
    have hrepl := jsObjectSet_of_mem (v := upd) kv hmem hkey
    have hok1 : setAlias seq num al now =
        .ok { seq with
          accounts := jsObjectSet seq.accounts num upd,
          lastUpdated := now } := by
      unfold setAlias
      rw [hdup, hfind]
    have hfind1 : (jsObjectSet seq.accounts num upd).find?
        (fun kv' => kv'.1 == num) = some (num, upd) := by
      rw [hrepl]
      exact find?_map_replace seq.accounts num upd ⟨kv, hmem, hkey⟩
    have hdup1 : (jsObjectSet seq.accounts num upd).find?
        (fun kv' => !(kv'.1 == num) && kv'.2.aliasName == some al) = none := by
      rw [hrepl]
      refine List.find?_eq_none.mpr ?_
      intro x hxmem
      obtain ⟨y, hymem, hyx⟩ := List.mem_map.mp hxmem
      by_cases hy : y.1 = num
      · rw [if_pos (by simp [hy])] at hyx
        subst hyx
        simp
      · rw [if_neg (by simp [hy])] at hyx
        subst hyx
        have := List.find?_eq_none.mp hdup y hymem
        simpa using this
    have hok2 : setAlias
        { seq with
          accounts := jsObjectSet seq.accounts num upd,
          lastUpdated := now } num al now' =
        .ok { seq with
          accounts := jsObjectSet (jsObjectSet seq.accounts num upd) num
            { upd with aliasName := some al },
          lastUpdated := now' } := by
      unfold setAlias
      simp only []
      rw [hdup1, hfind1]
    have hrepl1 := jsObjectSet_of_mem (m := jsObjectSet seq.accounts num upd)
      (v := { upd with aliasName := some al })
      (num, upd) (List.mem_of_find?_eq_some hfind1) rfl
    refine ⟨_, _, hok1, hok2, ?_, ?_⟩
    · simp only [jsObjectGet, hfind1]
      rfl
    · simp only [jsObjectGet]
      rw [hrepl1]
      rw [find?_map_replace (jsObjectSet seq.accounts num upd) num _
        ⟨(num, upd), List.mem_of_find?_eq_some hfind1, rfl⟩]
      rfl
  · intro seq num al now hex
    have hsome : (seq.accounts.find?
        (fun kv => !(kv.1 == num) && kv.2.aliasName == some al)).isSome := by
      obtain ⟨kv, hmem, hne, hal⟩ := hex
      exact List.find?_isSome.mpr ⟨kv, hmem, by simp [hne, hal]⟩
    obtain ⟨kv, hfind⟩ := Option.isSome_iff_exists.mp hsome
    have hpred := List.find?_some hfind
    have hmem := List.mem_of_find?_eq_some hfind
    refine ⟨kv, hmem, ?_, ?_, ?_⟩
    · intro hk
      simp [hk] at hpred
    · simp at hpred
      exact hpred.2
    · unfold setAlias
      rw [hfind]
  · intro seq num al now hnone
    rcases hdup : seq.accounts.find?
        (fun kv => !(kv.1 == num) && kv.2.aliasName == some al) with _ | kv
    · have hfindn : seq.accounts.find? (fun kv => kv.1 == num) = none :=
        List.find?_eq_none.mpr (fun kv hkv => by simp [hnone kv hkv])
      have herr : setAlias seq num al now =
          .error (getDisplayAccountLabel seq num ++ " does not exist") := by
        unfold setAlias
        rw [hdup, hfindn]
      exact ⟨_, herr⟩
    · have herr : setAlias seq num al now =
          .error ("Alias \"" ++ al ++ "\" is already in use by "
            ++ getDisplayAccountLabel seq kv.1 ++ " (" ++ kv.2.email ++ ")") := by
        unfold setAlias
        rw [hdup]
      exact ⟨_, herr⟩

/-- Every key of an account list is bounded by the fold of `Nat.max` over
the keys. -/
theorem key_le_foldr_max (l : List (Nat × Account)) :
    ∀ kv ∈ l, kv.1 ≤ (l.map (fun kv => kv.1)).foldr Nat.max 0 := by
  induction l with
  | nil => intro kv h; cases h
  | cons hd tl ih =>
    intro kv h
    rcases List.mem_cons.mp h with h | h
    · subst h
      simp only [List.map_cons, List.foldr_cons]
      exact Nat.le_max_left kv.1 ((tl.map (fun kv => kv.1)).foldr Nat.max 0)
    · refine le_trans (ih kv h) ?_
      simp only [List.map_cons, List.foldr_cons]
      exact Nat.le_max_right hd.1 ((tl.map (fun kv => kv.1)).foldr Nat.max 0)

/-- The next account number is strictly larger than every existing key. -/
theorem getNextAccountNumber_gt (seq : SequenceData) :
    ∀ kv ∈ seq.accounts, kv.1 < getNextAccountNumber seq := by
  intro kv h
  unfold getNextAccountNumber
  rw [if_neg (by rcases hacc : seq.accounts with _ | ⟨x, xs⟩ <;> simp_all)]
  exact Nat.lt_succ_of_le (key_le_foldr_max seq.accounts kv h)

/-- When no entry carries the key, the JS object update appends. -/
theorem jsObjectSet_of_not_mem {m : List (Nat × Account)} {k : Nat}
    {v : Account} (h : ∀ kv ∈ m, kv.1 ≠ k) :
    jsObjectSet m k v = m ++ [(k, v)] := by
  unfold jsObjectSet
  rw [if_neg]
  intro hany
  obtain ⟨kv, hmem, hk⟩ := List.any_eq_true.mp hany
  exact h kv hmem (by simpa using hk)

/-- The fold of `Nat.max` over keys all below a positive bound stays below
the bound. -/
theorem foldr_max_lt_of (l : List (Nat × Account)) (m : Nat) (hm : 0 < m)
    (h : ∀ kv ∈ l, kv.1 < m) :
    (l.map (fun kv => kv.1)).foldr Nat.max 0 < m := by
  induction l with
  | nil => simpa using hm
  | cons hd tl ih =>
    simp only [List.map_cons, List.foldr_cons]
    exact Nat.max_lt.mpr ⟨h hd (List.mem_cons_self hd tl),
      ih (fun kv hkv => h kv (List.mem_cons_of_mem hd hkv))⟩

/-- Witness for C8 on concrete registries: double alias assignment on
account 2, the in-use failure against account 1 of the aliased fixture, and
the failure on the nonexistent account 5. -/
theorem setAlias_spec_witness :
    (∃ seq1 seq2, setAlias exSeq2 2 "work" "t1" = .ok seq1
        ∧ setAlias seq1 2 "work" "t2" = .ok seq2
        ∧ (jsObjectGet seq1.accounts 2).map Account.aliasName =
            some (some "work")
        ∧ (jsObjectGet seq2.accounts 2).map Account.aliasName =
            some (some "work"))
      ∧ (∃ kv, kv ∈ exSeq2Alias.accounts ∧ kv.1 ≠ 2
          ∧ kv.2.aliasName = some "work"
          ∧ setAlias exSeq2Alias 2 "work" "t1" =
            .error ("Alias \"work\" is already in use by "
              ++ getDisplayAccountLabel exSeq2Alias kv.1
              ++ " (" ++ kv.2.email ++ ")"))
      ∧ (∃ e, setAlias exSeq2 5 "nope" "t1" = .error e) :=
  ⟨setAlias_spec.1 exSeq2 2 "work" "t1" "t2" (by decide) (by decide),
    setAlias_spec.2.1 exSeq2Alias 2 "work" "t1"
      ⟨(1, mkAccount "a@b.co" "u1" (some "work")), by decide, by decide, rfl⟩,
    setAlias_spec.2.2 exSeq2 5 "nope" "t1" (by decide)⟩

/-- Counterexample to C6 as stated: adding account info whose email equals
the email of existing account 1 assigns the new id 2, but resolving that
email afterwards returns the earlier account 1, not the newly assigned
id. -/
theorem addResolve_duplicate_email_counterexample :
    (addAccountToSequence exSeq1
        { email := "a@b.co", uuid := "u2", aliasName := none } "t1").activeAccountNumber
        = some 2
      ∧ resolveAccountIdentifier (addAccountToSequence exSeq1
          { email := "a@b.co", uuid := "u2", aliasName := none } "t1")
          "a@b.co" = some 1 :=
  ⟨rfl, rfl⟩

/-- Claim C6 (amended): for every registry and account info whose email is
not already present among the accounts and is not a digits-only token,
`addAccountToSequence` followed by `resolveAccountIdentifier` on the new
email returns the newly assigned id. -/
theorem addAccountToSequence_resolve_new_email (seq : SequenceData)
    (info : AccountInfo) (now : String)
    (hnew : accountExists seq info.email = false)
    (hnum : isDigitString info.email = false) :
    (addAccountToSequence seq info now).activeAccountNumber =
        some (getNextAccountNumber seq)
      ∧ resolveAccountIdentifier (addAccountToSequence seq info now)
          info.email = some (getNextAccountNumber seq) := by
  have hfresh : ∀ kv ∈ seq.accounts, kv.1 ≠ getNextAccountNumber seq :=
    fun kv hkv => Nat.ne_of_lt (getNextAccountNumber_gt seq kv hkv)
  have hnomatch : ∀ kv ∈ seq.accounts, ¬ (kv.2.email == info.email) = true := by
    intro kv hkv heq
    have : seq.accounts.any (fun kv => kv.2.email == info.email) = true :=
      List.any_eq_true.mpr ⟨kv, hkv, heq⟩
    rw [accountExists] at hnew
    rw [hnew] at this
    cases this
  refine ⟨by simp [addAccountToSequence], ?_⟩
  simp only [resolveAccountIdentifier, addAccountToSequence, hnum,
    Bool.false_eq_true, if_false]
  rw [jsObjectSet_of_not_mem hfresh]
  rw [List.find?_append]
  rw [List.find?_eq_none.mpr hnomatch]
  simp

/-- Witness for C6 (amended): adding a fresh second email to the one-account
registry assigns id 2 and resolving the new email returns 2. -/
theorem addAccountToSequence_resolve_new_email_witness :
    (addAccountToSequence exSeq1
        { email := "c@d.co", uuid := "u2", aliasName := none } "t1").activeAccountNumber
        = some (getNextAccountNumber exSeq1)
      ∧ resolveAccountIdentifier (addAccountToSequence exSeq1
          { email := "c@d.co", uuid := "u2", aliasName := none } "t1")
          "c@d.co" = some (getNextAccountNumber exSeq1) :=
  addAccountToSequence_resolve_new_email exSeq1
    { email := "c@d.co", uuid := "u2", aliasName := none } "t1" rfl rfl

/-- Claim C9: on a registry satisfying the three data-model invariants
(sequence ids are exactly the account keys, sequence ids are unique, the
active id when present is a key), `addAccountToSequence` with a fresh
email, `removeAccountFromSequence` of any id, and a successful `setAlias`
all return registries satisfying the same invariants. -/
theorem registry_operations_preserve_invariants :
    (∀ (seq : SequenceData) (info : AccountInfo) (now : String),
        RegistryInv seq → accountExists seq info.email = false →
        RegistryInv (addAccountToSequence seq info now))
      ∧ (∀ (seq : SequenceData) (n : Nat) (now : String),
        RegistryInv seq → RegistryInv (removeAccountFromSequence seq n now))
      ∧ (∀ (seq seq' : SequenceData) (n : Nat) (al now : String),
        RegistryInv seq → setAlias seq n al now = .ok seq' →
        RegistryInv seq') := by
  refine ⟨?_, ?_, ?_⟩
  · rintro seq info now ⟨hkeys, hnodup, hact⟩ _
    have hfresh : ∀ kv ∈ seq.accounts, kv.1 ≠ getNextAccountNumber seq :=
      fun kv hkv => Nat.ne_of_lt (getNextAccountNumber_gt seq kv hkv)
    have hnotinseq : getNextAccountNumber seq ∉ seq.sequence := by
      intro hmem
      obtain ⟨acc, haccmem⟩ := (hkeys _).mp hmem
      exact hfresh (getNextAccountNumber seq, acc) haccmem rfl
    refine ⟨?_, ?_, ?_⟩
    · intro m
      simp only [addAccountToSequence, jsObjectSet_of_not_mem hfresh,
        List.mem_append, List.mem_singleton]
      constructor
      · rintro (hm | hm)
        · obtain ⟨acc, haccmem⟩ := (hkeys m).mp hm
          exact ⟨acc, Or.inl haccmem⟩
        · subst hm
          exact ⟨_, Or.inr rfl⟩
      · rintro ⟨acc, hm | hm⟩
        · exact Or.inl ((hkeys m).mpr ⟨acc, hm⟩)
        · exact Or.inr (congrArg Prod.fst hm)
    · simp only [addAccountToSequence]
      simp [List.nodup_append, hnodup, hnotinseq]
    · intro a hsome
      simp only [addAccountToSequence, Option.some.injEq] at hsome
      subst hsome
      simp only [addAccountToSequence, jsObjectSet_of_not_mem hfresh]
      exact ⟨_, List.mem_append_right _ (List.mem_singleton.mpr rfl)⟩
  · rintro seq n now ⟨hkeys, hnodup, hact⟩
    have hmemiff : ∀ m acc,
        ((m, acc) ∈ seq.accounts.filter (fun kv => !(kv.1 == n))
          ↔ (m, acc) ∈ seq.accounts ∧ m ≠ n) := by
      intro m acc
      rw [List.mem_filter]
      simp
    have hkeyset : ∀ m, m ∈ seq.sequence.filter (fun x => !(x == n))
        ↔ ∃ acc, (m, acc) ∈ seq.accounts.filter (fun kv => !(kv.1 == n)) := by
      intro m
      rw [List.mem_filter]
      constructor
      · rintro ⟨hm, hne⟩
        obtain ⟨acc, haccmem⟩ := (hkeys m).mp hm
        exact ⟨acc, (hmemiff m acc).mpr ⟨haccmem, by simpa using hne⟩⟩
      · rintro ⟨acc, haccmem⟩
        obtain ⟨haccmem, hne⟩ := (hmemiff m acc).mp haccmem
        exact ⟨(hkeys m).mpr ⟨acc, haccmem⟩, by simpa using hne⟩
    refine ⟨?_, ?_, ?_⟩
    · intro m
      simpa [removeAccountFromSequence] using hkeyset m
    · simp only [removeAccountFromSequence]
      exact hnodup.filter _
    · intro a hsome
      simp only [removeAccountFromSequence] at hsome
      by_cases hemp : (seq.sequence.filter (fun x => !(x == n))).isEmpty
      · rw [if_pos hemp] at hsome
        cases hsome
      · rw [if_neg hemp] at hsome
        by_cases hwas : seq.activeAccountNumber == some n
        · rw [if_pos hwas] at hsome
          have hmem : a ∈ seq.sequence.filter (fun x => !(x == n)) := by
            rcases hh : seq.sequence.filter (fun x => !(x == n)) with _ | ⟨h, t⟩
            · rw [hh] at hemp; exact absurd rfl hemp
            · rw [hh] at hsome
              simp only [List.head?_cons, Option.some.injEq] at hsome
              subst hsome
              exact List.mem_cons_self h t
          obtain ⟨acc, haccmem⟩ := (hkeyset a).mp hmem
          exact ⟨acc, by
            simpa [removeAccountFromSequence] using haccmem⟩
        · rw [if_neg hwas] at hsome
          obtain ⟨acc, haccmem⟩ := hact a hsome
          have hne : a ≠ n := by
            intro heq
            subst heq
            rw [hsome] at hwas
            simp at hwas
          exact ⟨acc, by
            simp only [removeAccountFromSequence]
            exact (hmemiff a acc).mpr ⟨haccmem, hne⟩⟩
  · rintro seq seq' n al now ⟨hkeys, hnodup, hact⟩ hok
    unfold setAlias at hok
    rcases hdup : seq.accounts.find?
        (fun kv => !(kv.1 == n) && kv.2.aliasName == some al) with _ | kv
    · rw [hdup] at hok
      rcases hfind : seq.accounts.find? (fun kv => kv.1 == n) with _ | kv
      · rw [hfind] at hok
        cases hok
      · rw [hfind] at hok
        have hkey : kv.1 = n := by simpa using List.find?_some hfind
        have hmem := List.mem_of_find?_eq_some hfind
        have hrepl := jsObjectSet_of_mem
          (v := { kv.2 with aliasName := some al }) kv hmem hkey
        have hkeyset : ∀ m acc', ((m, acc') ∈ seq'.accounts →
            ∃ acc, (m, acc) ∈ seq.accounts)
            ∧ ((m, acc') ∈ seq.accounts → ∃ acc, (m, acc) ∈ seq'.accounts) := by
          have haccs : seq'.accounts =
              seq.accounts.map (fun kv' =>
                if kv'.1 == n then (n, { kv.2 with aliasName := some al })
                else kv') := by
            cases hok
            exact hrepl
          intro m acc'
          constructor
          · intro hmem'
            rw [haccs] at hmem'
            obtain ⟨y, hymem, hyx⟩ := List.mem_map.mp hmem'
            by_cases hy : y.1 = n
            · rw [if_pos (by simp [hy])] at hyx
              have hm : m = n := by
                simpa using congrArg Prod.fst hyx.symm
              subst hm
              exact ⟨kv.2, by rw [← hkey]; simpa using hmem⟩
            · rw [if_neg (by simp [hy])] at hyx
              exact ⟨acc', hyx ▸ hymem⟩
          · intro hmem'
            rw [haccs]
            by_cases hm : m = n
            · subst hm
              refine ⟨{ kv.2 with aliasName := some al }, List.mem_map.mpr
                ⟨(m, acc'), hmem', by simp⟩⟩
            · refine ⟨acc', List.mem_map.mpr
                ⟨(m, acc'), hmem', by simp [hm]⟩⟩
        have hseq : seq'.sequence = seq.sequence := by cases hok; rfl
        have hactive : seq'.activeAccountNumber = seq.activeAccountNumber := by
          cases hok; rfl
        refine ⟨?_, ?_, ?_⟩
        · intro m
          rw [hseq]
          constructor
          · intro hm
            obtain ⟨acc, haccmem⟩ := (hkeys m).mp hm
            exact (hkeyset m acc).2 haccmem
          · rintro ⟨acc, haccmem⟩
            obtain ⟨acc0, hacc0⟩ := (hkeyset m acc).1 haccmem
            exact (hkeys m).mpr ⟨acc0, hacc0⟩
        · rw [hseq]; exact hnodup
        · intro a hsome
          rw [hactive] at hsome
          obtain ⟨acc, haccmem⟩ := hact a hsome
          exact (hkeyset a acc).2 haccmem
    · rw [hdup] at hok
      cases hok

/-- Witness for C9 on the two-account fixture: a fresh add, a removal, and a
successful alias assignment each preserve the invariants. -/
theorem registry_operations_preserve_invariants_witness :
    RegistryInv (addAccountToSequence exSeq2
        { email := "e@f.co", uuid := "u3", aliasName := none } "t1")
      ∧ RegistryInv (removeAccountFromSequence exSeq2 1 "t1")
      ∧ RegistryInv { exSeq2 with
          accounts := jsObjectSet exSeq2.accounts 2
            { mkAccount "c@d.co" "u2" with aliasName := some "work" },
          lastUpdated := "t1" } := by
  have hinv : RegistryInv exSeq2 := by
    refine ⟨?_, by decide, ?_⟩
    · intro n
      show n ∈ [1, 2] ↔ ∃ acc,
        (n, acc) ∈ [(1, mkAccount "a@b.co" "u1"), (2, mkAccount "c@d.co" "u2")]
      constructor
      · intro hn
        rcases List.mem_cons.mp hn with rfl | hn
        · exact ⟨mkAccount "a@b.co" "u1", by decide⟩
        · rcases List.mem_singleton.mp hn with rfl
          exact ⟨mkAccount "c@d.co" "u2", by decide⟩
      · rintro ⟨acc, hacc⟩
        rcases List.mem_cons.mp hacc with h | hacc
        · have hn1 : n = 1 := congrArg Prod.fst h
          subst hn1; decide
        · rcases List.mem_singleton.mp hacc with h
          have hn2 : n = 2 := congrArg Prod.fst h
          subst hn2; decide
    · intro a ha
      have h1 : some 1 = some a := ha
      cases h1
      exact ⟨mkAccount "a@b.co" "u1", by decide⟩
  refine ⟨registry_operations_preserve_invariants.1 exSeq2
      { email := "e@f.co", uuid := "u3", aliasName := none } "t1" hinv rfl,
    registry_operations_preserve_invariants.2.1 exSeq2 1 "t1" hinv,
    registry_operations_preserve_invariants.2.2 exSeq2 _ 2 "work" "t1" hinv
      rfl⟩

/-- Claim C10: internal ids can be reused after removal, because
`getNextAccountNumber` is computed from the current account map only. For
every registry whose maximum key is the (system-assigned, hence positive)
id `m` of an existing account, removing that account and then adding a new
one assigns an id no larger than `m`; in particular removing id 2 from the
two-account fixture and adding assigns id 2 again to the new account. -/
theorem account_number_reuse_after_removal :
    (∀ (seq : SequenceData) (m : Nat) (acc : Account) (info : AccountInfo)
        (now now' : String),
        (m, acc) ∈ seq.accounts →
        (∀ kv ∈ seq.accounts, kv.1 ≤ m) →
        1 ≤ m →
        ∃ id, (addAccountToSequence (removeAccountFromSequence seq m now)
              info now').activeAccountNumber = some id
          ∧ id = getNextAccountNumber (removeAccountFromSequence seq m now)
          ∧ id ≤ m)
      ∧ ((addAccountToSequence (removeAccountFromSequence exSeq2 2 "t1")
            { email := "e@f.co", uuid := "u3", aliasName := none }
            "t2").activeAccountNumber = some 2
        ∧ (jsObjectGet (addAccountToSequence
              (removeAccountFromSequence exSeq2 2 "t1")
              { email := "e@f.co", uuid := "u3", aliasName := none }
              "t2").accounts 2).map Account.email = some "e@f.co") := by
  constructor
  · intro seq m acc info now now' _ hbound hm
    refine ⟨getNextAccountNumber (removeAccountFromSequence seq m now),
      by simp [addAccountToSequence], rfl, ?_⟩
    have hrem : (removeAccountFromSequence seq m now).accounts =
        seq.accounts.filter (fun kv => !(kv.1 == m)) := rfl
    unfold getNextAccountNumber
    rw [hrem]
    by_cases hemp : (seq.accounts.filter (fun kv => !(kv.1 == m))).isEmpty
    · rw [if_pos hemp]
      exact hm
    · rw [if_neg hemp]
      have hlt : ∀ kv ∈ seq.accounts.filter (fun kv => !(kv.1 == m)),
          kv.1 < m := by
        intro kv hkv
        have hmem := List.mem_of_mem_filter hkv
        have hne : ¬ (kv.1 == m) = true := by
          simpa using List.of_mem_filter hkv
        exact lt_of_le_of_ne (hbound kv hmem) (by simpa using hne)
      exact Nat.succ_le_of_lt
        (foldr_max_lt_of _ m (Nat.lt_of_lt_of_le Nat.zero_lt_one hm) hlt)
  · exact ⟨rfl, rfl⟩

/-- Witness for C10 on the two-account fixture: after removing the maximal
id 2, the next add assigns an id bounded by 2. -/
theorem account_number_reuse_after_removal_witness :
    ∃ id, (addAccountToSequence (removeAccountFromSequence exSeq2 2 "t1")
          { email := "e@f.co", uuid := "u3", aliasName := none }
          "t2").activeAccountNumber = some id
      ∧ id = getNextAccountNumber (removeAccountFromSequence exSeq2 2 "t1")
      ∧ id ≤ 2 :=
  account_number_reuse_after_removal.1 exSeq2 2 (mkAccount "c@d.co" "u2")
    { email := "e@f.co", uuid := "u3", aliasName := none } "t1" "t2"
    (by decide) (by decide) (by decide)

/-- The backup step of the switch protocol never touches the persisted
registry file. -/
theorem performSwitchBackup_preserves_registry (f : SwitchFaults)
    (env : SwitchEnv) (a : Option Nat) (ce : String) :
    (performSwitchBackup f env a ce).2.registryFile = env.registryFile := by
  unfold performSwitchBackup
  repeat' split
  all_goals simp only []
  all_goals repeat' split
  all_goals
    rename_i heq
    split at heq <;>
      (injection heq with h1 h2
       rw [← h2])

/-- The commit step either succeeds or leaves the registry file exactly as
it received it. -/
theorem performSwitchCommit_registry (f : SwitchFaults) (envC : SwitchEnv)
    (seq : SequenceData) (t : Nat) (now : String) (oa : OAuthAccount)
    (rest : List (String × String)) :
    (performSwitchCommit f envC seq t now oa rest).1 = .ok ()
      ∨ (performSwitchCommit f envC seq t now oa rest).2.registryFile =
          envC.registryFile := by
  unfold performSwitchCommit
  split
  · exact Or.inr rfl
  · split
    · exact Or.inr rfl
    · exact Or.inl rfl

/-- The switch protocol either returns success or leaves the persisted
registry file exactly as it was: the registry write is the last step. -/
theorem performSwitch_ok_or_preserves_registry (f : SwitchFaults)
    (env : SwitchEnv) (seq : SequenceData) (t : Nat) (now : String) :
    (performSwitch f env seq t now).1 = .ok ()
      ∨ (performSwitch f env seq t now).2.registryFile = env.registryFile := by
  simp only [performSwitch]
  split
  · split
    · exact Or.inr rfl
    · exact Or.inl rfl
  · split
    · exact Or.inr rfl
    · split
      · exact Or.inr rfl
      · split
        · exact Or.inr rfl
        · split
          next e envB heq =>
            have hpres := performSwitchBackup_preserves_registry f env
              seq.activeAccountNumber (getCurrentAccount env.claudeConfig)
            rw [heq] at hpres
            exact Or.inr hpres
          next u envB heq =>
            have hpres := performSwitchBackup_preserves_registry f env
              seq.activeAccountNumber (getCurrentAccount env.claudeConfig)
            rw [heq] at hpres
            repeat' split
            all_goals
              first
                | exact Or.inr hpres
                | (rcases performSwitchCommit_registry f _ seq t now _ _ with
                      hok | hreg
                   · exact Or.inl hok
                   · exact Or.inr (hreg.trans hpres))

/-- Claim C1: whenever `performSwitch` raises an error at any step — in
particular at any step after the email-safety validation: during backup of
the current account, reading the target backups, detecting missing backup
data, writing the target credentials, or merging the target identity into
the live configuration — the persisted registry is not committed: the
registry file, and with it its active account number and its lastUpdated
stamp, are unchanged from before the call. -/
theorem performSwitch_error_preserves_registry (f : SwitchFaults)
    (env : SwitchEnv) (seq : SequenceData) (t : Nat) (now : String)
    (e : String)
    (herr : (performSwitch f env seq t now).1 = .error e) :
    (performSwitch f env seq t now).2.registryFile = env.registryFile
      ∧ ((performSwitch f env seq t now).2.registryFile.map
          SequenceData.activeAccountNumber =
          env.registryFile.map SequenceData.activeAccountNumber)
      ∧ ((performSwitch f env seq t now).2.registryFile.map
          SequenceData.lastUpdated =
          env.registryFile.map SequenceData.lastUpdated) := by
  rcases performSwitch_ok_or_preserves_registry f env seq t now with hok | hp
  · rw [herr] at hok
    cases hok
  · exact ⟨hp, by rw [hp], by rw [hp]⟩

/-- Witness for C1: switching to account 2 with no backups present raises
the missing-backup-data error and leaves the persisted registry, its active
account number, and its lastUpdated stamp unchanged. -/
theorem performSwitch_error_preserves_registry_witness :
    (performSwitch exNoFaults exEnv exSeq2 2 "t9").1 =
        .error "Missing backup data for Account-2"
      ∧ ((performSwitch exNoFaults exEnv exSeq2 2 "t9").2.registryFile =
          exEnv.registryFile
        ∧ ((performSwitch exNoFaults exEnv exSeq2 2 "t9").2.registryFile.map
            SequenceData.activeAccountNumber =
            exEnv.registryFile.map SequenceData.activeAccountNumber)
        ∧ ((performSwitch exNoFaults exEnv exSeq2 2 "t9").2.registryFile.map
            SequenceData.lastUpdated =
            exEnv.registryFile.map SequenceData.lastUpdated)) :=
  ⟨rfl, performSwitch_error_preserves_registry exNoFaults exEnv exSeq2 2 "t9"
    "Missing backup data for Account-2" rfl⟩

end Ccflip
